import Mathlib

/-!
Verification of the value-estimation and concurrent-enrichment pipeline of the
elk-river-alerts repository: a shallow embedding, in Lean 4, of the Python
modules validation.py, firearm_values.py, cache_manager.py and
concurrent_estimator.py, followed by theorems settling the specification
claims about them.

Modelling conventions:
- Python floats are modelled as rationals; all constants in the source are
  decimal literals, so the arithmetic is exact.
- Python strings are modelled as Lean character lists (PyStr) with executable
  upper/strip/substring operations mirroring str.upper, str.strip and the
  `in` operator on the ASCII inputs the pipeline handles.
- I/O (the HTTP request of search_armslist, wall-clock time) is passed in
  explicitly: the network is an oracle of type Except String (List
  MarketListing) standing for the parsed response of the single HTTP GET, or
  the requests.RequestException raised after retries; the current time is a
  rational parameter.
- Dictionaries with a fixed field set (market listing dicts, value-info
  dicts) become structures.
-/

namespace ElkRiver

/-- Python strings restricted to their character-list content. -/
abbrev PyStr := List Char

/-- Character class of Python's str.strip default / regex whitespace on the
ASCII range. -/
def isPySpace (c : Char) : Bool :=
  c = ' ' || c = '\t' || c = '\n' || c = '\r' || c = '\x0b' || c = '\x0c'

/-- Model of str.strip(): remove leading and trailing whitespace. -/
def pyStrip (s : PyStr) : PyStr :=
  ((s.dropWhile isPySpace).reverse.dropWhile isPySpace).reverse

/-- Model of str.upper() on the ASCII inputs of this pipeline. -/
def pyUpper (s : PyStr) : PyStr :=
  s.map Char.toUpper

/-- Model of Python list/str containment: pat occurs contiguously in s.
Implemented by direct recursion so that it evaluates in the kernel. -/
def headMatches : PyStr → PyStr → Bool
  | [], _ => true
  | _ :: _, [] => false
  | p :: ps, c :: cs => p = c && headMatches ps cs

/-- Model of the Python expression pat in s (substring containment). -/
def containsSub (s pat : PyStr) : Bool :=
  match s with
  | [] => pat.isEmpty
  | _ :: rest => headMatches pat s || containsSub rest pat

/-- Result dataclass of validation.py (ValidationResult). -/
structure ValidationResult (α : Type) where
  is_valid : Bool
  cleaned_value : Option α := none
  error_message : String := ""
deriving Repr, DecidableEq

/-- MANUFACTURER_PATTERN character class [A-Za-z0-9\s&\-\.]. -/
def manufacturerChar (c : Char) : Bool :=
  c.isAlphanum || isPySpace c || c = '&' || c = '-' || c = '.'

/-- MODEL_PATTERN character class [A-Za-z0-9\s\-\./]. -/
def modelChar (c : Char) : Bool :=
  c.isAlphanum || isPySpace c || c = '-' || c = '.' || c = '/'

/-- CALIBER_PATTERN character class [A-Za-z0-9\s\-\.Ã—X/] (the two extra
characters are the mojibake bytes present in the source pattern). -/
def caliberChar (c : Char) : Bool :=
  c.isAlphanum || isPySpace c || c = '-' || c = '.' || c = 'Ã' || c = '—' || c = 'X' || c = '/'

/-- Anchored match of a whitelist pattern with a length band, modelling
re.compile(r...{lo,hi}$).match. -/
def matchesPattern (ok : Char → Bool) (hi : ℕ) (s : PyStr) : Bool :=
  1 ≤ s.length && s.length ≤ hi && s.all ok

/-- SQL-injection tokens rejected by the validator. -/
def sql_tokens : List PyStr :=
  ["SELECT".toList, "INSERT".toList, "UPDATE".toList, "DELETE".toList,
   "DROP".toList, "UNION".toList, "--".toList, ";".toList]

/-- Model of the loop over sql_patterns: some token occurs in s. -/
def hasSqlToken (s : PyStr) : Bool :=
  sql_tokens.any (fun p => containsSub s p)

/-- InputValidator.validate_manufacturer. The isinstance check is vacuous in
the typed embedding. -/
def validate_manufacturer (manufacturer : String) : ValidationResult PyStr :=
  let raw := manufacturer.toList
  if raw.isEmpty then ⟨false, none, "Manufacturer is required"⟩
  else
    let cleaned := pyUpper (pyStrip raw)
    if cleaned.isEmpty then ⟨false, none, "Manufacturer cannot be empty"⟩
    else if 50 < cleaned.length then ⟨false, none, "Manufacturer name too long (max 50 characters)"⟩
    else if !matchesPattern manufacturerChar 50 cleaned then
      ⟨false, none, "Manufacturer contains invalid characters"⟩
    else if hasSqlToken cleaned then ⟨false, none, "Manufacturer contains invalid content"⟩
    else ⟨true, some cleaned, ""⟩

/-- InputValidator.validate_model. -/
def validate_model (model : String) : ValidationResult PyStr :=
  let raw := model.toList
  if raw.isEmpty then ⟨false, none, "Model is required"⟩
  else
    let cleaned := pyUpper (pyStrip raw)
    if cleaned.isEmpty then ⟨false, none, "Model cannot be empty"⟩
    else if 50 < cleaned.length then ⟨false, none, "Model name too long (max 50 characters)"⟩
    else if !matchesPattern modelChar 50 cleaned then
      ⟨false, none, "Model contains invalid characters"⟩
    else if hasSqlToken cleaned then ⟨false, none, "Model contains invalid content"⟩
    else ⟨true, some cleaned, ""⟩

/-- InputValidator.validate_caliber. -/
def validate_caliber (caliber : String) : ValidationResult PyStr :=
  let raw := caliber.toList
  if raw.isEmpty then ⟨false, none, "Caliber is required"⟩
  else
    let cleaned := pyUpper (pyStrip raw)
    if cleaned.isEmpty then ⟨false, none, "Caliber cannot be empty"⟩
    else if 30 < cleaned.length then ⟨false, none, "Caliber name too long (max 30 characters)"⟩
    else if !matchesPattern caliberChar 30 cleaned then
      ⟨false, none, "Caliber contains invalid characters"⟩
    else if hasSqlToken cleaned then ⟨false, none, "Caliber contains invalid content"⟩
    else ⟨true, some cleaned, ""⟩

/-- Cleaned parameter triple returned by validate_search_params. -/
structure SearchParams where
  manufacturer : PyStr
  model : PyStr
  caliber : PyStr
deriving Repr, DecidableEq

/-- validation.validate_search_params. -/
def validate_search_params (manufacturer model caliber : String) :
    ValidationResult SearchParams :=
  let mr := validate_manufacturer manufacturer
  if !mr.is_valid then ⟨false, none, "Manufacturer: " ++ mr.error_message⟩
  else
    let dr := validate_model model
    if !dr.is_valid then ⟨false, none, "Model: " ++ dr.error_message⟩
    else
      let cr := validate_caliber caliber
      if !cr.is_valid then ⟨false, none, "Caliber: " ++ cr.error_message⟩
      else ⟨true, some ⟨mr.cleaned_value.getD [], dr.cleaned_value.getD [],
                        cr.cleaned_value.getD []⟩, ""⟩

/-- Minimum acceptable value for any firearm (MIN_VALUE, used with the same
value in firearm_values.py and concurrent_estimator.py). -/
def MIN_VALUE : ℚ := 50

/-- Association-list lookup with default, modelling dict.get(key, default)
on the literal factor tables. -/
def tableLookup (tbl : List (PyStr × ℚ)) (k : PyStr) (dflt : ℚ) : ℚ :=
  match tbl with
  | [] => dflt
  | (k', v) :: rest => if k' = k then v else tableLookup rest k dflt

/-- Base values for popular manufacturers (manufacturer_values table). -/
def manufacturer_values : List (PyStr × ℚ) :=
  [("GLOCK".toList, 500), ("SMITH & WESSON".toList, 450), ("S&W".toList, 450),
   ("RUGER".toList, 400), ("SIG SAUER".toList, 600), ("COLT".toList, 800),
   ("REMINGTON".toList, 450), ("WINCHESTER".toList, 600), ("MOSSBERG".toList, 350),
   ("BERETTA".toList, 550), ("SAVAGE".toList, 400), ("SPRINGFIELD".toList, 550),
   ("TAURUS".toList, 300), ("HENRY".toList, 450), ("BROWNING".toList, 700),
   ("FN".toList, 750), ("CZ".toList, 600), ("KIMBER".toList, 850),
   ("KEL-TEC".toList, 300), ("HK".toList, 900), ("TIKKA".toList, 700),
   ("MARLIN".toList, 500), ("STOEGER".toList, 400)]

/-- Value modifiers based on caliber/gauge (caliber_factors table). -/
def caliber_factors : List (PyStr × ℚ) :=
  [("9MM".toList, 1), ("45 ACP".toList, 1.1), ("380 ACP".toList, 0.9),
   ("40 S&W".toList, 0.95), ("10MM".toList, 1.2), ("357 MAG".toList, 1.15),
   ("44 MAG".toList, 1.2), ("22 LONG RIFLE".toList, 0.8), ("22 LR".toList, 0.8),
   ("223 REM".toList, 1.05), ("5.56".toList, 1.05), ("5.56X45 NATO".toList, 1.05),
   ("5.56 NATO".toList, 1.05), ("308 WIN".toList, 1.1), ("7.62X39".toList, 1),
   ("12 GAUGE".toList, 1), ("20 GAUGE".toList, 0.95), ("6.5 CREEDMOOR".toList, 1.15),
   ("300 WIN MAG".toList, 1.2), ("30-06".toList, 1.1),
   ("30-06 SPRINGFIELD".toList, 1.1), ("30-30 WIN".toList, 1),
   ("45-70 GOVT".toList, 1.15), ("38 SPECIAL".toList, 0.9)]

/-- Model-specific factor block of estimate_market_value: the cumulative
model_factor updates applied to model_upper given mfg_upper. -/
def model_factor_of (mfg_upper model_upper : PyStr) : ℚ :=
  let f : ℚ := 1
  let f := if ["CUSTOM".toList, "TACTICAL".toList, "PREMIUM".toList, "ELITE".toList,
               "TARGET".toList].any (fun w => containsSub model_upper w) then f * 1.2 else f
  let f := if ["COMPACT".toList, "CARRY".toList].any
               (fun w => containsSub model_upper w) then f * 1.05 else f
  let f := if containsSub model_upper "COMPETITION".toList then f * 1.25 else f
  let f := if containsSub model_upper "HUNTER".toList then f * 1.1 else f
  if mfg_upper = "GLOCK".toList then
    if model_upper ∈ ["17".toList, "19".toList, "43".toList, "43X".toList, "48".toList]
    then f * 1.1 else f
  else if mfg_upper = "SMITH & WESSON".toList ∨ mfg_upper = "S&W".toList then
    if containsSub model_upper "SHIELD".toList then f * 1.05
    else if containsSub model_upper "629".toList || containsSub model_upper "686".toList
    then f * 1.2 else f
  else if mfg_upper = "RUGER".toList then
    if containsSub model_upper "10/22".toList then f * 0.9
    else if containsSub model_upper "MINI-14".toList then f * 1.15
    else if containsSub model_upper "GP100".toList then f * 1.1 else f
  else if mfg_upper = "COLT".toList then
    if containsSub model_upper "PYTHON".toList then f * 1.5
    else if containsSub model_upper "1911".toList then f * 1.2 else f
  else if mfg_upper = "TAURUS".toList then
    if containsSub model_upper "PT22".toList || containsSub model_upper "PT-22".toList
    then f * 0.85 else f
  else f

/-- Body of firearm_values.estimate_market_value: the computation inside its
try block. -/
def estimate_market_value_core (manufacturer model caliber : String) :
    ℚ × (ℚ × ℚ) × ℕ :=
  let mfg_upper := pyUpper manufacturer.toList
  let base_price := tableLookup manufacturer_values mfg_upper 450
  let cal_upper := pyUpper caliber.toList
  let caliber_factor := tableLookup caliber_factors cal_upper 1
  let model_upper := pyUpper model.toList
  let model_factor := model_factor_of mfg_upper model_upper
  let estimated_price := base_price * caliber_factor * model_factor
  let estimated_price := max estimated_price MIN_VALUE
  let range_low := max (estimated_price * 0.85) MIN_VALUE
  let range_high := max (estimated_price * 1.15) (range_low * 1.1)
  (estimated_price, (range_low, range_high), 0)

/-- firearm_values.estimate_market_value. The Python function returns None
only when an exception escapes its try block; the embedded computation is
pure and total, so the result is always present — this is itself one of the
verified properties (determinism, never raising for string inputs). -/
def estimate_market_value (manufacturer model caliber : String) :
    Option (ℚ × (ℚ × ℚ) × ℕ) :=
  some (estimate_market_value_core manufacturer model caliber)

/-- Listing dict built by search_armslist, possibly annotated with an
avg_price key by get_market_listings. -/
structure MarketListing where
  title : String := "No Title"
  price : Option ℚ := none
  price_text : String := "Price not listed"
  link : String := "#"
  location : String := "Location not specified"
  ships : Bool := false
  source : String := "Armslist"
  avg_price : Option ℚ := none
deriving Repr, DecidableEq

/-- Cache entry stored by MarketListingsCache.set: the JSON blob
{timestamp, listings, manufacturer, model, caliber}. -/
structure CacheEntry where
  timestamp : ℚ
  listings : List MarketListing
  manufacturer : String
  model : String
  caliber : String
deriving Repr, DecidableEq

/-- Association-list find keyed by cache key, modelling both the memory_cache
dict lookup and the existence check + read of the per-key cache file. -/
def assocFind (k : PyStr) : List (PyStr × CacheEntry) → Option CacheEntry
  | [] => none
  | (k', v) :: rest => if k' = k then some v else assocFind k rest

/-- Association-list overwrite, modelling dict insertion / file write. -/
def assocInsert (k : PyStr) (v : CacheEntry) (m : List (PyStr × CacheEntry)) :
    List (PyStr × CacheEntry) :=
  (k, v) :: m.filter (fun p => p.1 ≠ k)

/-- Association-list removal, modelling del / Path.unlink. -/
def assocErase (k : PyStr) (m : List (PyStr × CacheEntry)) :
    List (PyStr × CacheEntry) :=
  m.filter (fun p => p.1 ≠ k)

/-- State of a MarketListingsCache instance: the volatile memory tier, the
durable file tier, and the configured TTL in seconds (ttl_hours * 3600,
default ttl_hours = 24). Only well-formed persisted entries are modelled;
a corrupted durable record is treated by the source as absent-and-removed,
which no claim exercises. -/
structure CacheState where
  ttl_seconds : ℚ := 24 * 3600
  memory_cache : List (PyStr × CacheEntry) := []
  file_cache : List (PyStr × CacheEntry) := []
deriving Repr, DecidableEq

/-- MarketListingsCache._generate_cache_key. The source MD5-hashes the
normalized "MANUFACTURER|MODEL|CALIBER" string; the hash is modelled as the
identity on that normalized string (injectivity of the fingerprint is the
only property the pipeline relies on). -/
def generate_cache_key (manufacturer model caliber : String) : PyStr :=
  pyStrip (pyUpper manufacturer.toList) ++ '|' :: pyStrip (pyUpper model.toList)
    ++ '|' :: pyStrip (pyUpper caliber.toList)

/-- MarketListingsCache._is_cache_valid: entry age is below the TTL. -/
def is_cache_valid (ttl_seconds now : ℚ) (cache_data : CacheEntry) : Bool :=
  now - cache_data.timestamp < ttl_seconds

/-- File-tier half of MarketListingsCache.get: consulted on a memory miss;
a valid hit repopulates the memory tier, an expired hit unlinks the file. -/
def CacheState.getFile (s : CacheState) (now : ℚ) (key : PyStr) :
    Option (List MarketListing) × CacheState :=
  match assocFind key s.file_cache with
  | some cache_data =>
    if is_cache_valid s.ttl_seconds now cache_data then
      (some cache_data.listings,
       { s with memory_cache := assocInsert key cache_data s.memory_cache })
    else (none, { s with file_cache := assocErase key s.file_cache })
  | none => (none, s)

/-- MarketListingsCache.get: memory tier first, then file tier; expired
entries are deleted from the tier where they are found. The current time is
passed explicitly in place of time.time(). -/
def CacheState.get (s : CacheState) (now : ℚ) (manufacturer model caliber : String) :
    Option (List MarketListing) × CacheState :=
  let key := generate_cache_key manufacturer model caliber
  match assocFind key s.memory_cache with
  | some cache_data =>
    if is_cache_valid s.ttl_seconds now cache_data then (some cache_data.listings, s)
    else CacheState.getFile { s with memory_cache := assocErase key s.memory_cache } now key
  | none => CacheState.getFile s now key

/-- MarketListingsCache.set: store the entry in both tiers (the durable
write failure path is logged-only in the source and does not change the
returned state). -/
def CacheState.set (s : CacheState) (now : ℚ) (manufacturer model caliber : String)
    (listings : List MarketListing) : CacheState :=
  let key := generate_cache_key manufacturer model caliber
  let cache_data : CacheEntry := ⟨now, listings, manufacturer, model, caliber⟩
  { s with memory_cache := assocInsert key cache_data s.memory_cache,
           file_cache := assocInsert key cache_data s.file_cache }

/-- Outcome of a call to search_armslist: a listings result, a raised
ValueError (invalid parameters or HTML-parse failure), or a raised
requests.RequestException. -/
inductive SearchOutcome where
  | listings (ls : List MarketListing)
  | valueError (msg : String)
  | requestError (msg : String)
deriving Repr, DecidableEq

/-- firearm_values.search_armslist. The net oracle stands for the
request/retry/parse block (lines after validation): Except.ok is a fully
parsed (possibly empty) listings list, Except.error the
requests.RequestException raised once retries are exhausted. Validation runs
before the oracle is consulted, exactly as the HTTP GET only happens after
validate_search_params passes in the source. -/
def search_armslist (manufacturer model caliber : String)
    (net : Except String (List MarketListing)) : SearchOutcome :=
  let vr := validate_search_params manufacturer model caliber
  if !vr.is_valid then
    .valueError ("Invalid search parameters: " ++ vr.error_message)
  else
    match net with
    | .ok ls => .listings ls
    | .error e => .requestError e

/-- Whether a call to search_armslist with these arguments reaches the HTTP
request: the GET is issued if and only if parameter validation passes, since
a validation failure raises before the request block. -/
def search_attempts_network (manufacturer model caliber : String) : Bool :=
  (validate_search_params manufacturer model caliber).is_valid

/-- Comparison key of sorted(valid_listings, key price): every listing on
this path carries a price, so the default for an absent price is never
read. -/
def priceLe (a b : MarketListing) : Prop :=
  a.price.getD 0 ≤ b.price.getD 0

instance : DecidableRel priceLe :=
  fun a b => inferInstanceAs (Decidable (a.price.getD 0 ≤ b.price.getD 0))

instance : IsTotal MarketListing priceLe :=
  ⟨fun a b => le_total (a.price.getD 0) (b.price.getD 0)⟩

instance : IsTrans MarketListing priceLe :=
  ⟨fun _ _ _ => le_trans⟩

/-- Filter of get_market_listings retaining listings whose price is a number
strictly greater than 0 (the isinstance check is vacuous in the typed
embedding). -/
def numericPositivePrice (l : MarketListing) : Bool :=
  match l.price with
  | some p => 0 < p
  | none => false

/-- Post-fetch processing block of get_market_listings: keep only listings
whose price is a number strictly greater than 0, sort them by ascending
price, and when at least three remain annotate each with the average
price. -/
def process_listings (all_listings : List MarketListing) : List MarketListing :=
  if !all_listings.isEmpty then
    let valid_listings := all_listings.filter numericPositivePrice
    let sorted_listings := List.insertionSort priceLe valid_listings
    if 3 ≤ sorted_listings.length then
      let prices := sorted_listings.filterMap (fun l => l.price)
      if !prices.isEmpty then
        let avg_price := prices.sum / (prices.length : ℚ)
        sorted_listings.map (fun l => { l with avg_price := some avg_price })
      else sorted_listings
    else sorted_listings
  else all_listings

/-- firearm_values.get_market_listings. The cache consultation, the
search_armslist call, the positive-price filter, the price sort, the
avg_price annotation for three or more listings, and the cache store of the
processed list. Raises ValueError (Except.error) when validation fails;
network and parse failures from search_armslist are caught and degrade to an
empty result. -/
def get_market_listings (manufacturer model caliber : String) (use_cache : Bool)
    (net : Except String (List MarketListing)) (cache : CacheState) (now : ℚ) :
    Except String (List MarketListing × CacheState) :=
  let vr := validate_search_params manufacturer model caliber
  if !vr.is_valid then
    .error ("Invalid search parameters: " ++ vr.error_message)
  else
    let p := vr.cleaned_value.getD ⟨[], [], []⟩
    let manufacturer := String.mk p.manufacturer
    let model := String.mk p.model
    let caliber := String.mk p.caliber
    let cres := if use_cache then cache.get now manufacturer model caliber else (none, cache)
    match cres.1 with
    | some cached_listings => .ok (cached_listings, cres.2)
    | none =>
      let armslist_results :=
        match search_armslist manufacturer model caliber net with
        | .listings ls => ls
        | .valueError _ => []
        | .requestError _ => []
      let all_listings := process_listings armslist_results
      let cache2 :=
        if use_cache && !all_listings.isEmpty then
          cres.2.set now manufacturer model caliber all_listings
        else cres.2
      .ok (all_listings, cache2)

/-- Filter applied to fetched listings in estimate_value and
_estimate_single_value: drop suspiciously low prices, keeping price-less
listings (price is None or price >= MIN_VALUE). -/
def price_ok (l : MarketListing) : Bool :=
  match l.price with
  | none => true
  | some p => MIN_VALUE ≤ p

/-- Python truthiness of l.get("price") inside any(...): a price that is
present and nonzero. -/
def price_truthy (l : MarketListing) : Bool :=
  match l.price with
  | none => false
  | some p => p ≠ 0

/-- Blending block common to estimate_value (firearm_values.py) and
_estimate_single_value (concurrent_estimator.py), duplicated verbatim in the
source: floor the heuristic price, and when the retained market listings
carry at least one valid price, blend 70% online / 30% heuristic and re-derive
the range with the capped adjustment. Returns the (possibly blended) price
and range. -/
def blend_with_market (avg_price0 : ℚ) (price_range0 : ℚ × ℚ)
    (market_listings : List MarketListing) : ℚ × (ℚ × ℚ) :=
  let avg_price := max avg_price0 MIN_VALUE
  if !market_listings.isEmpty && market_listings.any price_truthy then
    let valid_prices := market_listings.filterMap (fun l => l.price)
    if !valid_prices.isEmpty then
      let online_avg := valid_prices.sum / (valid_prices.length : ℚ)
      let online_avg := max online_avg MIN_VALUE
      if 0 < online_avg then
        let blended_price := online_avg * 0.7 + avg_price * 0.3
        let blended_price := max blended_price MIN_VALUE
        let range_adjustment := min (|blended_price - avg_price| / avg_price) 0.3
        let new_range_low := max (blended_price * (0.85 - range_adjustment / 2)) MIN_VALUE
        let new_range_high := max (blended_price * (1.15 + range_adjustment / 2))
          (new_range_low * 1.1)
        (blended_price, (new_range_low, new_range_high))
      else (avg_price, price_range0)
    else (avg_price, price_range0)
  else (avg_price, price_range0)

/-- Sample-size field of a value-info dict: a Python int or the string
"N/A". -/
inductive SampleSize where
  | count (n : ℕ)
  | na
deriving Repr, DecidableEq

/-- Value-info dict assembled by estimate_value / _estimate_single_value. -/
structure ValueInfo where
  estimated_value : Option ℚ
  value_range : Option (ℚ × ℚ)
  sample_size : SampleSize
  source : String
  confidence : String
  market_listings : List MarketListing
deriving Repr, DecidableEq

/-- Final safety clamp and dict construction of the heuristic branch
(lines 535-550 of firearm_values.py and 146-161 of
concurrent_estimator.py). -/
def heuristic_value_info (avg_price : ℚ) (price_range : ℚ × ℚ)
    (market_listings : List MarketListing) : ValueInfo :=
  let range_low := max price_range.1 MIN_VALUE
  let range_high := max price_range.2 (range_low * 1.1)
  { estimated_value := some avg_price
    value_range := some (range_low, range_high)
    sample_size := if market_listings.isEmpty then .na else .count market_listings.length
    source := if market_listings.isEmpty then "Market Estimator"
              else "Market Estimator + " ++ toString market_listings.length ++ " Online Listings"
    confidence := if market_listings.isEmpty then "medium" else "high"
    market_listings := market_listings }

/-- List minimum in the style of Python min() on a nonempty list (the only
call sites guard non-emptiness). -/
def list_min (l : List ℚ) : ℚ :=
  match l with
  | [] => 0
  | x :: xs => xs.foldl min x

/-- List maximum in the style of Python max() on a nonempty list. -/
def list_max (l : List ℚ) : ℚ :=
  match l with
  | [] => 0
  | x :: xs => xs.foldl max x

/-- Online-only fallback branch taken when the heuristic result is absent
but market listings carry valid prices. -/
def online_only_value_info (valid_prices : List ℚ)
    (market_listings : List MarketListing) : ValueInfo :=
  let online_avg := valid_prices.sum / (valid_prices.length : ℚ)
  let range_low := list_min valid_prices
  let range_high := list_max valid_prices
  let online_avg := max online_avg MIN_VALUE
  let range_low := max range_low MIN_VALUE
  let range_high := max range_high (range_low * 1.1)
  { estimated_value := some online_avg
    value_range := some (range_low, range_high)
    sample_size := .count valid_prices.length
    source := "Online Listings (" ++ toString valid_prices.length ++ " samples)"
    confidence := "medium"
    market_listings := market_listings }

/-- Terminal no-data dict. -/
def no_data_value_info : ValueInfo :=
  { estimated_value := none
    value_range := none
    sample_size := .count 0
    source := "No data available"
    confidence := "none"
    market_listings := [] }

/-- Branch structure shared by estimate_value and _estimate_single_value
after the listings have been fetched and filtered: heuristic branch when the
algorithmic result is present, else online-only when valid prices exist,
else no data. -/
def build_value_info (algo : Option (ℚ × (ℚ × ℚ) × ℕ))
    (market_listings : List MarketListing) : ValueInfo :=
  match algo with
  | some (avg_price0, price_range0, _) =>
    let b := blend_with_market avg_price0 price_range0 market_listings
    heuristic_value_info b.1 b.2 market_listings
  | none =>
    if !market_listings.isEmpty && market_listings.any price_truthy then
      let valid_prices := market_listings.filterMap (fun l => l.price)
      if !valid_prices.isEmpty then online_only_value_info valid_prices market_listings
      else no_data_value_info
    else no_data_value_info

/-- firearm_values.estimate_value: validate and clean the inputs, fetch
market listings through get_market_listings when online sources are
requested, filter suspicious prices, and build the value-info dict. Raises
ValueError (Except.error) on invalid parameters. -/
def estimate_value (manufacturer model caliber : String) (use_online_sources : Bool)
    (net : Except String (List MarketListing)) (cache : CacheState) (now : ℚ) :
    Except String (ValueInfo × CacheState) :=
  let vr := validate_search_params manufacturer model caliber
  if !vr.is_valid then
    .error ("Invalid parameters for value estimation: " ++ vr.error_message)
  else
    let p := vr.cleaned_value.getD ⟨[], [], []⟩
    let manufacturer := String.mk p.manufacturer
    let model := String.mk p.model
    let caliber := String.mk p.caliber
    match (if use_online_sources then
             get_market_listings manufacturer model caliber true net cache now
           else .ok ([], cache)) with
    | .error e => .error e
    | .ok (fetched, cache2) =>
      let market_listings := if !fetched.isEmpty then fetched.filter price_ok else fetched
      .ok (build_value_info (estimate_market_value manufacturer model caliber)
             market_listings, cache2)

/-- concurrent_estimator.EstimationTask. -/
structure EstimationTask where
  index : ℕ
  manufacturer : String
  model : String
  caliber : String
  use_online_sources : Bool := false
deriving Repr, DecidableEq

/-- concurrent_estimator.EstimationResult. processing_time is a wall-clock
measurement, modelled as 0. -/
structure EstimationResult where
  index : ℕ
  manufacturer : String
  model : String
  caliber : String
  success : Bool
  value_info : Option ValueInfo := none
  error : Option String := none
  processing_time : ℚ := 0
deriving Repr, DecidableEq

/-- Default rate_limit_delay of ConcurrentValueEstimator.__init__
(the dashboard call site in app.py passes 0.3 explicitly). -/
def rate_limit_delay_default : ℚ := 0.5

/-- Sleep performed by _rate_limited_request while holding the shared
request lock: when the time since the last permitted call is below the
configured delay, sleep exactly the remainder, else proceed at once. -/
def rate_limit_sleep (rate_limit_delay last_request_time current_time : ℚ) : ℚ :=
  let time_since_last := current_time - last_request_time
  if time_since_last < rate_limit_delay then rate_limit_delay - time_since_last
  else 0

/-- ConcurrentValueEstimator._get_cached_or_fetch_listings: cache first,
else a rate-limited search_armslist call whose successful result is stored
in the cache; RequestException, ValueError and unexpected errors are all
caught and degrade to an empty listings list. -/
def get_cached_or_fetch_listings (cache : CacheState) (now : ℚ)
    (manufacturer model caliber : String)
    (net : Except String (List MarketListing)) : List MarketListing × CacheState :=
  let cres := cache.get now manufacturer model caliber
  match cres.1 with
  | some cached_listings => (cached_listings, cres.2)
  | none =>
    match search_armslist manufacturer model caliber net with
    | .listings ls => (ls, cres.2.set now manufacturer model caliber ls)
    | .valueError _ => ([], cres.2)
    | .requestError _ => ([], cres.2)

/-- Successful EstimationResult wrapper: every reachable return site of
_estimate_single_value builds this same record with success=True (the
catch-all failure site is only reachable through exceptions the pure
embedding cannot raise, since all expected ones are caught inside the
helpers). -/
def mk_success_result (task : EstimationTask) (vi : ValueInfo) (c : CacheState) :
    EstimationResult × CacheState :=
  ({ index := task.index, manufacturer := task.manufacturer, model := task.model,
     caliber := task.caliber, success := true, value_info := some vi,
     error := none, processing_time := 0 }, c)

/-- concurrent_estimator._estimate_single_value. Note the asymmetry faithful
to the source: the heuristic branch filters suspicious prices out of the
fetched listings, the online-only fallback branch does not. -/
def estimate_single_value (task : EstimationTask) (cache : CacheState) (now : ℚ)
    (net : Except String (List MarketListing)) : EstimationResult × CacheState :=
  match estimate_market_value task.manufacturer task.model task.caliber with
  | some (avg_price0, price_range0, _) =>
    let fetched :=
      if task.use_online_sources then
        get_cached_or_fetch_listings cache now task.manufacturer task.model task.caliber net
      else ([], cache)
    let market_listings :=
      if !fetched.1.isEmpty then fetched.1.filter price_ok else fetched.1
    let b := blend_with_market avg_price0 price_range0 market_listings
    mk_success_result task (heuristic_value_info b.1 b.2 market_listings) fetched.2
  | none =>
    if task.use_online_sources then
      let fetched :=
        get_cached_or_fetch_listings cache now task.manufacturer task.model task.caliber net
      let market_listings := fetched.1
      if !market_listings.isEmpty && market_listings.any price_truthy then
        let valid_prices := market_listings.filterMap (fun l => l.price)
        if !valid_prices.isEmpty then
          mk_success_result task (online_only_value_info valid_prices market_listings) fetched.2
        else mk_success_result task no_data_value_info fetched.2
      else mk_success_result task no_data_value_info fetched.2
    else mk_success_result task no_data_value_info cache

/-- Environment one task observes when its worker runs it: the cache state
at that moment, the wall clock, and the network oracle for its fetch. -/
structure TaskEnv where
  cache : CacheState
  now : ℚ
  net : Except String (List MarketListing)

/-- One worker executing one task (the future submitted per task). -/
def run_task (env : TaskEnv) (task : EstimationTask) : EstimationResult :=
  (estimate_single_value task env.cache env.now env.net).1

/-- concurrent_estimator.estimate_values_batch: results = [None] * len(tasks),
then as futures complete (in an arbitrary completion order, modelled as an
explicit permutation of the task list) each result is written at position
result.index. The per-task environments model the interleaving of cache and
network effects each worker observes. -/
def estimate_values_batch (env : EstimationTask → TaskEnv)
    (tasks completion_order : List EstimationTask) : List (Option EstimationResult) :=
  completion_order.foldl
    (fun results task =>
      results.set (run_task (env task) task).index (some (run_task (env task) task)))
    (List.replicate tasks.length none)

/-- concurrent_estimator.create_estimation_tasks applied to listing records
reduced to their (manufacturer, model, caliber) triples. -/
def create_estimation_tasks (listings : List (String × String × String))
    (use_online_sources : Bool) : List EstimationTask :=
  (List.range listings.length).zip listings |>.map
    (fun p => { index := p.1, manufacturer := p.2.1, model := p.2.2.1,
                caliber := p.2.2.2, use_online_sources := use_online_sources })

/-! Helper lemmas shared by the claim theorems. -/

theorem assocFind_insert_self (k : PyStr) (v : CacheEntry)
    (m : List (PyStr × CacheEntry)) : assocFind k (assocInsert k v m) = some v := by
  simp [assocFind, assocInsert]

theorem assocFind_erase_self (k : PyStr) (m : List (PyStr × CacheEntry)) :
    assocFind k (assocErase k m) = none := by
  induction m with
  | nil => rfl
  | cons p rest ih =>
    by_cases h : p.1 = k
    · simpa [assocErase, h] using ih
    · simpa [assocErase, assocFind, h] using ih

theorem string_mk_toList (s : String) : String.mk s.toList = s := by
  cases s
  rfl

theorem blend_with_market_nil (a : ℚ) (pr : ℚ × ℚ) :
    blend_with_market a pr [] = (max a MIN_VALUE, pr) := rfl

theorem build_value_info_on_emv (manufacturer model caliber : String)
    (ml : List MarketListing) :
    build_value_info (estimate_market_value manufacturer model caliber) ml =
      heuristic_value_info
        (blend_with_market (estimate_market_value_core manufacturer model caliber).1
          (estimate_market_value_core manufacturer model caliber).2.1 ml).1
        (blend_with_market (estimate_market_value_core manufacturer model caliber).1
          (estimate_market_value_core manufacturer model caliber).2.1 ml).2 ml := rfl

theorem run_task_index (env : TaskEnv) (task : EstimationTask) :
    (run_task env task).index = task.index := rfl

theorem run_task_success (env : TaskEnv) (task : EstimationTask) :
    (run_task env task).success = true := rfl

theorem listGet_set_self : ∀ (l : List (Option EstimationResult)) (i : ℕ)
    (a : Option EstimationResult), i < l.length → (l.set i a).get? i = some a
  | [], i, _, h => absurd h (by simp)
  | _ :: _, 0, _, _ => rfl
  | _ :: xs, i + 1, a, h => listGet_set_self xs i a (by simpa using h)

theorem listGet_set_ne : ∀ (l : List (Option EstimationResult)) (i j : ℕ)
    (a : Option EstimationResult), i ≠ j → (l.set i a).get? j = l.get? j
  | [], _, _, _, _ => rfl
  | _ :: _, 0, 0, _, h => absurd rfl h
  | _ :: _, 0, _ + 1, _, _ => rfl
  | _ :: _, _ + 1, 0, _, _ => rfl
  | _ :: xs, i + 1, j + 1, a, h =>
    listGet_set_ne xs i j a (fun e => h (by rw [e]))

theorem listGet_replicate : ∀ (n j : ℕ), j < n →
    (List.replicate n (none : Option EstimationResult)).get? j = some none
  | 0, _, h => absurd h (by simp)
  | _ + 1, 0, _ => rfl
  | n + 1, j + 1, h => listGet_replicate n j (by simpa using h)

theorem cache_get_empty (now : ℚ) (manufacturer model caliber : String) :
    CacheState.get {} now manufacturer model caliber = (none, {}) := rfl

theorem get_cached_or_fetch_on_error (cache : CacheState) (now : ℚ)
    (manufacturer model caliber : String) (e : String)
    (hmiss : (cache.get now manufacturer model caliber).1 = none) :
    get_cached_or_fetch_listings cache now manufacturer model caliber (.error e) =
      ([], (cache.get now manufacturer model caliber).2) := by
  simp only [get_cached_or_fetch_listings, hmiss, search_armslist]
  split
  · next heq => split at heq <;> simp at heq
  · rfl
  · rfl

theorem get_cached_or_fetch_invalid (cache : CacheState) (now : ℚ)
    (manufacturer model caliber : String) (net : Except String (List MarketListing))
    (hmiss : (cache.get now manufacturer model caliber).1 = none)
    (hinvalid : (validate_search_params manufacturer model caliber).is_valid = false) :
    get_cached_or_fetch_listings cache now manufacturer model caliber net =
      ([], (cache.get now manufacturer model caliber).2) := by
  simp only [get_cached_or_fetch_listings, hmiss, search_armslist, hinvalid,
    Bool.not_false, if_pos]

theorem estimate_single_value_empty_fetch (task : EstimationTask)
    (cache s2 : CacheState) (now : ℚ) (net : Except String (List MarketListing))
    (honline : task.use_online_sources = true)
    (hfetch : get_cached_or_fetch_listings cache now task.manufacturer task.model
      task.caliber net = ([], s2)) :
    estimate_single_value task cache now net =
      mk_success_result task
        (heuristic_value_info
          (max (estimate_market_value_core task.manufacturer task.model task.caliber).1
            MIN_VALUE)
          (estimate_market_value_core task.manufacturer task.model task.caliber).2.1 []) s2 := by
  simp only [estimate_single_value, estimate_market_value, honline, if_true, hfetch,
    List.isEmpty_nil, Bool.not_true, Bool.false_eq_true, if_false, blend_with_market_nil]

theorem estimate_value_ok_shape {manufacturer model caliber : String} {online : Bool}
    {net : Except String (List MarketListing)} {cache : CacheState} {now : ℚ}
    {vi : ValueInfo} {s : CacheState}
    (h : estimate_value manufacturer model caliber online net cache now = .ok (vi, s)) :
    ∃ M MO C ml, vi = build_value_info (estimate_market_value M MO C) ml := by
  simp only [estimate_value] at h
  split at h
  · simp at h
  · split at h
    · simp at h
    · rw [Except.ok.injEq, Prod.mk.injEq] at h
      exact ⟨_, _, _, _, h.1.symm⟩

theorem heuristic_value_info_confidence (a : ℚ) (pr : ℚ × ℚ)
    (ml : List MarketListing) :
    (heuristic_value_info a pr ml).confidence =
      if ml.isEmpty then "medium" else "high" := rfl

theorem heuristic_value_info_listings (a : ℚ) (pr : ℚ × ℚ)
    (ml : List MarketListing) :
    (heuristic_value_info a pr ml).market_listings = ml := rfl

theorem heuristic_value_info_estimated (a : ℚ) (pr : ℚ × ℚ)
    (ml : List MarketListing) :
    (heuristic_value_info a pr ml).estimated_value = some a := rfl

/-! Claim theorems. -/

/-- C6: for all (manufacturer, model, caliber) string inputs,
estimate_market_value deterministically returns (never raising) a price at
least the 50 floor together with a range (low, high) satisfying low ≥ 50 and
high ≥ low * 1.1. Totality of the embedded function over arbitrary strings
models the never-raises clause; determinism is inherent to it being a
function of its arguments. -/
theorem C6_estimate_market_value_bounds (manufacturer model caliber : String) :
    ∃ price low high,
      estimate_market_value manufacturer model caliber = some (price, (low, high), 0) ∧
      50 ≤ price ∧ 50 ≤ low ∧ low * 1.1 ≤ high := by
  exact ⟨_, _, _, rfl, le_max_right _ _, le_max_right _ _, le_max_right _ _⟩

/-- C7 counterexample: the claim says the shared rate limiter's configured
delay defaults to 0.3 seconds, but the ConcurrentValueEstimator.__init__
default is 0.5 (app.py passes 0.3 explicitly at its call site, overriding the
default). -/
theorem C7_default_delay_is_not_three_tenths : ¬ rate_limit_delay_default = 3/10 := by
  norm_num [rate_limit_delay_default]

/-- C7 (amended): the shared minimum-interval rate limiter has a configured
delay defaulting to 0.5 seconds, and whenever the time since the previous
permitted call is below the configured delay, the requesting worker sleeps
exactly the remainder before the network call proceeds. -/
theorem C7_rate_limiter_sleeps_remainder (last now delay : ℚ)
    (h : now - last < delay) :
    rate_limit_sleep delay last now = delay - (now - last) ∧
    rate_limit_delay_default = 1/2 := by
  refine ⟨?_, by norm_num [rate_limit_delay_default]⟩
  simp only [rate_limit_sleep]
  rw [if_pos h]

/-- C7 witness: at last-call time 0, current time 1/5 and delay 1/2, the
limiter sleeps exactly the remainder. -/
theorem C7_witness :
    rate_limit_sleep (1/2) 0 (1/5) = 1/2 - (1/5 - 0) ∧
    rate_limit_delay_default = 1/2 :=
  C7_rate_limiter_sleeps_remainder 0 (1/5) (1/2) (by norm_num)

/-- C5: for every cache state and key triple, set followed by get strictly
before the TTL elapses returns the stored listings unchanged; once the TTL
has elapsed, get returns absent and the expired entry is deleted from the
tiers where it is found (set had written it to both, get deletes it from
both). -/
theorem C5_cache_roundtrip_and_expiry (s : CacheState) (t_set t_get : ℚ)
    (manufacturer model caliber : String) (L : List MarketListing) :
    if t_get - t_set < s.ttl_seconds then
      ((s.set t_set manufacturer model caliber L).get t_get manufacturer model caliber).1 =
        some L
    else
      ((s.set t_set manufacturer model caliber L).get t_get manufacturer model caliber).1 =
        none ∧
      assocFind (generate_cache_key manufacturer model caliber)
        ((s.set t_set manufacturer model caliber L).get t_get manufacturer
          model caliber).2.memory_cache = none ∧
      assocFind (generate_cache_key manufacturer model caliber)
        ((s.set t_set manufacturer model caliber L).get t_get manufacturer
          model caliber).2.file_cache = none := by
  simp only [CacheState.set, CacheState.get, CacheState.getFile, assocFind_insert_self,
    is_cache_valid]
  split
  · next hlt =>
    rw [if_pos (by simpa using hlt)]
  · next hge =>
    rw [if_neg (by simpa using hge), if_neg (by simpa using hge)]
    exact ⟨rfl, assocFind_erase_self _ _, assocFind_erase_self _ _⟩

/-- C1 counterexample: a task whose caliber fails validation (empty string)
is not short-circuited with success=false; the orchestrator runs it to a
successful heuristic-only result with no error message, even though the
network oracle would have returned a listing. The claimed
validate-first/success=false behaviour does not exist in
_estimate_single_value. -/
theorem C1_counterexample :
    (validate_search_params "GLOCK" "19" "").is_valid = false ∧
    (estimate_single_value ⟨0, "GLOCK", "19", "", true⟩ {} 0
      (Except.ok [{ price := some 550 }])).1.success = true ∧
    (estimate_single_value ⟨0, "GLOCK", "19", "", true⟩ {} 0
      (Except.ok [{ price := some 550 }])).1.error = none ∧
    ∃ vi, (estimate_single_value ⟨0, "GLOCK", "19", "", true⟩ {} 0
      (Except.ok [{ price := some 550 }])).1.value_info = some vi ∧
      vi.confidence = "medium" ∧ vi.market_listings = [] :=
  ⟨by decide, rfl, rfl, ⟨_, rfl, rfl, rfl⟩⟩

/-- C1 (amended): for a task with use_online_sources=true whose parameters
fail validation, the inputs are only validated inside the marketplace search
(after the heuristic computation and the cache check); the validation
failure raises before the HTTP request, is caught, and degrades the task to
a successful heuristic-only result — success=true with no error message and
no network call attempted, never a success=false validation failure. -/
theorem C1_validation_failure_degrades (task : EstimationTask) (cache : CacheState)
    (now : ℚ) (net : Except String (List MarketListing))
    (honline : task.use_online_sources = true)
    (hinvalid : (validate_search_params task.manufacturer task.model
      task.caliber).is_valid = false)
    (hmiss : (cache.get now task.manufacturer task.model task.caliber).1 = none) :
    search_attempts_network task.manufacturer task.model task.caliber = false ∧
    ∃ vi, (estimate_single_value task cache now net).1.success = true ∧
      (estimate_single_value task cache now net).1.error = none ∧
      (estimate_single_value task cache now net).1.value_info = some vi ∧
      vi.confidence = "medium" ∧ vi.source = "Market Estimator" := by
  refine ⟨by simpa [search_attempts_network] using hinvalid, ?_⟩
  have hfetch := get_cached_or_fetch_invalid cache now task.manufacturer task.model
    task.caliber net hmiss hinvalid
  rw [estimate_single_value_empty_fetch task cache _ now net honline hfetch]
  exact ⟨_, rfl, rfl, rfl, rfl, rfl⟩

/-- C1 witness: the amended statement at the concrete invalid task of the
counterexample, starting from the empty cache. -/
theorem C1_witness :
    search_attempts_network "GLOCK" "19" "" = false ∧
    ∃ vi, (estimate_single_value ⟨0, "GLOCK", "19", "", true⟩ {} 0
        (Except.ok [{ price := some 550 }])).1.success = true ∧
      (estimate_single_value ⟨0, "GLOCK", "19", "", true⟩ {} 0
        (Except.ok [{ price := some 550 }])).1.error = none ∧
      (estimate_single_value ⟨0, "GLOCK", "19", "", true⟩ {} 0
        (Except.ok [{ price := some 550 }])).1.value_info = some vi ∧
      vi.confidence = "medium" ∧ vi.source = "Market Estimator" :=
  C1_validation_failure_degrades ⟨0, "GLOCK", "19", "", true⟩ {} 0
    (Except.ok [{ price := some 550 }]) rfl (by decide) rfl

/-- C3: if the marketplace client raises a network error on its call and the
cache holds nothing, a task with use_online_sources=true still completes
with success=true, confidence "medium", and the source label citing the
heuristic estimator only — the network failure degrades the task to the
heuristic-only estimate instead of failing it. -/
theorem C3_network_error_degrades_to_heuristic (task : EstimationTask) (now : ℚ)
    (e : String) (honline : task.use_online_sources = true) :
    ∃ vi, (estimate_single_value task {} now (Except.error e)).1.success = true ∧
      (estimate_single_value task {} now (Except.error e)).1.value_info = some vi ∧
      vi.confidence = "medium" ∧ vi.source = "Market Estimator" ∧
      vi.market_listings = [] := by
  have hfetch : get_cached_or_fetch_listings {} now task.manufacturer task.model
      task.caliber (Except.error e) = ([], {}) := by
    simpa [cache_get_empty] using
      get_cached_or_fetch_on_error {} now task.manufacturer task.model task.caliber e
        (by rw [cache_get_empty])
  rw [estimate_single_value_empty_fetch task {} {} now (Except.error e) honline hfetch]
  exact ⟨_, rfl, rfl, rfl, rfl, rfl⟩

/-- C3 witness: the degraded-network scenario at a concrete online task. -/
theorem C3_witness :
    ∃ vi, (estimate_single_value ⟨0, "GLOCK", "19", "9MM", true⟩ {} 0
        (Except.error "connection error")).1.success = true ∧
      (estimate_single_value ⟨0, "GLOCK", "19", "9MM", true⟩ {} 0
        (Except.error "connection error")).1.value_info = some vi ∧
      vi.confidence = "medium" ∧ vi.source = "Market Estimator" ∧
      vi.market_listings = [] :=
  C3_network_error_degrades_to_heuristic ⟨0, "GLOCK", "19", "9MM", true⟩ 0
    "connection error" rfl

theorem batch_fold_length (env : EstimationTask → TaskEnv) :
    ∀ (order : List EstimationTask) (acc : List (Option EstimationResult)),
      (order.foldl
        (fun results task =>
          results.set (run_task (env task) task).index (some (run_task (env task) task)))
        acc).length = acc.length := by
  intro order
  induction order with
  | nil => intro acc; rfl
  | cons t rest ih =>
    intro acc
    simp only [List.foldl_cons]
    rw [ih]
    exact List.length_set ..

theorem batch_fold_good (env : EstimationTask → TaskEnv) :
    ∀ (order : List EstimationTask) (acc : List (Option EstimationResult)),
      (∀ j r, acc.get? j = some (some r) → r.index = j) →
      ∀ j r,
        (order.foldl
          (fun results task =>
            results.set (run_task (env task) task).index (some (run_task (env task) task)))
          acc).get? j = some (some r) → r.index = j := by
  intro order
  induction order with
  | nil => intro acc h; exact h
  | cons t rest ih =>
    intro acc h
    simp only [List.foldl_cons]
    apply ih
    intro j r hj
    by_cases hij : (run_task (env t) t).index = j
    · by_cases hlt : j < acc.length
      · rw [hij, listGet_set_self acc j _ hlt] at hj
        cases hj
        rw [run_task_index] at hij
        rw [run_task_index]
        exact hij
      · rw [List.get?_eq_none.mpr (by simpa [List.length_set] using not_lt.mp hlt)] at hj
        cases hj
    · rw [listGet_set_ne _ _ _ _ hij] at hj
      exact h j r hj

theorem batch_fold_covers (env : EstimationTask → TaskEnv) :
    ∀ (order : List EstimationTask) (acc : List (Option EstimationResult)) (j : ℕ),
      j < acc.length →
      ((∃ r, acc.get? j = some (some r)) ∨ ∃ t ∈ order, t.index = j) →
      ∃ r,
        (order.foldl
          (fun results task =>
            results.set (run_task (env task) task).index (some (run_task (env task) task)))
          acc).get? j = some (some r) := by
  intro order
  induction order with
  | nil =>
    intro acc j _ hc
    rcases hc with ⟨r, hr⟩ | ⟨t, ht, _⟩
    · exact ⟨r, hr⟩
    · simp at ht
  | cons t rest ih =>
    intro acc j hj hc
    simp only [List.foldl_cons]
    apply ih _ j (by simpa [List.length_set] using hj)
    by_cases hij : t.index = j
    · left
      refine ⟨run_task (env t) t, ?_⟩
      have hidx : (run_task (env t) t).index = j := by rw [run_task_index]; exact hij
      rw [hidx]
      exact listGet_set_self acc j _ hj
    · rcases hc with ⟨r, hr⟩ | ⟨t', ht', hidx'⟩
      · left
        refine ⟨r, ?_⟩
        rw [listGet_set_ne _ _ _ _ (by rw [run_task_index]; exact hij)]
        exact hr
      · rcases List.mem_cons.mp ht' with rfl | hmem
        · exact absurd hidx' hij
        · right
          exact ⟨t', hmem, hidx'⟩

/-- C4: for a batch of N tasks whose index fields are 0..N-1 in input order,
estimate_values_batch returns exactly N slots in which — for every completion
order, modelled as an arbitrary permutation of the task list, and for
arbitrary per-task environments — the i-th slot is occupied by a result with
index i: every input task yields a result at its own input position. -/
theorem C4_batch_preserves_input_order (env : EstimationTask → TaskEnv)
    (tasks completion_order : List EstimationTask)
    (hperm : completion_order.Perm tasks)
    (hidx : tasks.map EstimationTask.index = List.range tasks.length) :
    (estimate_values_batch env tasks completion_order).length = tasks.length ∧
    ∀ i, i < tasks.length → ∃ r,
      (estimate_values_batch env tasks completion_order).get? i = some (some r) ∧
      r.index = i := by
  constructor
  · simp only [estimate_values_batch]
    rw [batch_fold_length]
    exact List.length_replicate ..
  · intro i hi
    have hmemtask : i ∈ tasks.map EstimationTask.index := by
      rw [hidx]
      exact List.mem_range.mpr hi
    obtain ⟨t, htmem, hti⟩ := List.mem_map.mp hmemtask
    have hcov : ∃ r, (estimate_values_batch env tasks completion_order).get? i =
        some (some r) := by
      apply batch_fold_covers env completion_order _ i
        (by simpa [List.length_replicate] using hi)
      exact Or.inr ⟨t, hperm.mem_iff.mpr htmem, hti⟩
    obtain ⟨r, hr⟩ := hcov
    refine ⟨r, hr, ?_⟩
    apply batch_fold_good env completion_order _ ?_ i r hr
    intro j r' hj
    by_cases hjlt : j < tasks.length
    · rw [listGet_replicate _ _ hjlt] at hj
      cases hj
    · rw [List.get?_eq_none.mpr (by simpa [List.length_replicate] using not_lt.mp hjlt)] at hj
      cases hj

/-- Tasks, environment and swapped completion order for the C4 witness. -/
def taskW0 : EstimationTask := ⟨0, "GLOCK", "19", "9MM", false⟩

def taskW1 : EstimationTask := ⟨1, "RUGER", "10/22", "22 LR", false⟩

def envW : EstimationTask → TaskEnv := fun _ => ⟨{}, 0, Except.error "offline"⟩

/-- C4 witness: a two-task batch completed in reversed order still delivers
the result with index i at position i. -/
theorem C4_witness :
    (estimate_values_batch envW [taskW0, taskW1] [taskW1, taskW0]).length =
      [taskW0, taskW1].length ∧
    ∀ i, i < [taskW0, taskW1].length → ∃ r,
      (estimate_values_batch envW [taskW0, taskW1] [taskW1, taskW0]).get? i =
        some (some r) ∧ r.index = i :=
  C4_batch_preserves_input_order envW [taskW0, taskW1] [taskW1, taskW0]
    (by decide) (by decide)

/-! Concrete fixtures: listings as search_armslist builds them (a price-less
listing — price text without a dollar amount — and priced ones), cache
states seeded the way ConcurrentValueEstimator caches raw search results,
and evaluations of the pipeline on them. -/

def listing_no_price : MarketListing := {}

def listing_550 : MarketListing :=
  { title := "GLOCK 19 GEN5", price := some 550, price_text := "$550" }

def listing_100 : MarketListing :=
  { title := "PROJECT GUN", price := some 100, price_text := "$100" }

def seeded_cache_one : CacheState :=
  CacheState.set {} 0 "GLOCK" "19" "9MM" [listing_no_price]

def seeded_cache_two : CacheState :=
  CacheState.set {} 0 "GLOCK" "19" "9MM" [listing_no_price, listing_550]

theorem hval_glock : validate_search_params "GLOCK" "19" "9MM" =
    ⟨true, some ⟨"GLOCK".toList, "19".toList, "9MM".toList⟩, ""⟩ := by decide

theorem emv_core_glock :
    estimate_market_value_core "GLOCK" "19" "9MM" = (550, (935/2, 1265/2), 0) := by
  simp +decide only [estimate_market_value_core, tableLookup, manufacturer_values,
    caliber_factors, model_factor_of, pyUpper, containsSub, headMatches, MIN_VALUE]
  norm_num [max_def]

theorem seeded_one_get : seeded_cache_one.get 0 "GLOCK" "19" "9MM" =
    (some [listing_no_price], seeded_cache_one) := by
  simp only [seeded_cache_one, CacheState.set, CacheState.get, assocFind_insert_self]
  rw [if_pos (by simp only [is_cache_valid]; norm_num)]

theorem seeded_two_get : seeded_cache_two.get 0 "GLOCK" "19" "9MM" =
    (some [listing_no_price, listing_550], seeded_cache_two) := by
  simp only [seeded_cache_two, CacheState.set, CacheState.get, assocFind_insert_self]
  rw [if_pos (by simp only [is_cache_valid]; norm_num)]

theorem gml_hit_one :
    get_market_listings "GLOCK" "19" "9MM" true (Except.error "network down")
      seeded_cache_one 0 = .ok ([listing_no_price], seeded_cache_one) := by
  simp only [get_market_listings, hval_glock, Option.getD_some, string_mk_toList,
    seeded_one_get, if_true]
  rfl

theorem gml_hit_two :
    get_market_listings "GLOCK" "19" "9MM" true (Except.error "network down")
      seeded_cache_two 0 = .ok ([listing_no_price, listing_550], seeded_cache_two) := by
  simp only [get_market_listings, hval_glock, Option.getD_some, string_mk_toList,
    seeded_two_get, if_true]
  rfl

def vi_offline : ValueInfo :=
  { estimated_value := some 550
    value_range := some (935/2, 1265/2)
    sample_size := .na
    source := "Market Estimator"
    confidence := "medium"
    market_listings := [] }

theorem ev_offline :
    estimate_value "GLOCK" "19" "9MM" false (Except.error "network down") {} 0 =
      .ok (vi_offline, {}) := by
  simp only [estimate_value, hval_glock, Option.getD_some, string_mk_toList,
    Bool.not_true, Bool.false_eq_true, if_false, List.isEmpty_nil, if_true,
    build_value_info_on_emv, emv_core_glock, blend_with_market_nil]
  simp only [heuristic_value_info, vi_offline, List.isEmpty_nil, if_true]
  norm_num [MIN_VALUE, max_def]

def vi_hit_one : ValueInfo :=
  { estimated_value := some 550
    value_range := some (935/2, 1265/2)
    sample_size := .count 1
    source := "Market Estimator + " ++ toString (1 : ℕ) ++ " Online Listings"
    confidence := "high"
    market_listings := [listing_no_price] }

theorem ev_hit_one :
    estimate_value "GLOCK" "19" "9MM" true (Except.error "network down")
      seeded_cache_one 0 = .ok (vi_hit_one, seeded_cache_one) := by
  simp only [estimate_value, hval_glock, Option.getD_some, string_mk_toList,
    Bool.not_true, Bool.false_eq_true, if_false, if_true, gml_hit_one]
  simp only [List.isEmpty_cons, Bool.not_false, if_true, List.filter,
    price_ok, listing_no_price]
  simp only [build_value_info_on_emv, emv_core_glock, blend_with_market,
    price_truthy, List.any_cons, List.any_nil, List.isEmpty_cons, Bool.not_false,
    Bool.or_false, Bool.and_false, Bool.false_eq_true, if_false]
  simp only [heuristic_value_info, vi_hit_one, List.isEmpty_cons, List.length_cons,
    List.length_nil, Bool.false_eq_true, if_false]
  norm_num [MIN_VALUE, max_def]
  rfl

def vi_hit_two : ValueInfo :=
  { estimated_value := some 550
    value_range := some (935/2, 1265/2)
    sample_size := .count 2
    source := "Market Estimator + " ++ toString (2 : ℕ) ++ " Online Listings"
    confidence := "high"
    market_listings := [listing_no_price, listing_550] }

theorem ev_hit_two :
    estimate_value "GLOCK" "19" "9MM" true (Except.error "network down")
      seeded_cache_two 0 = .ok (vi_hit_two, seeded_cache_two) := by
  have hfilter : List.filter price_ok [listing_no_price, listing_550] =
      [listing_no_price, listing_550] := by decide
  have hany : ([listing_no_price, listing_550].any price_truthy) = true := by decide
  have hfm : List.filterMap (fun l => l.price) [listing_no_price, listing_550] =
      [550] := by decide
  simp only [estimate_value, hval_glock, Option.getD_some, string_mk_toList,
    Bool.not_true, Bool.false_eq_true, if_false, if_true, gml_hit_two]
  simp only [List.isEmpty_cons, Bool.not_false, if_true, hfilter]
  rw [build_value_info_on_emv, emv_core_glock]
  simp only [blend_with_market, hany, hfm, List.isEmpty_cons, Bool.not_false,
    Bool.and_self, if_true, List.sum_cons, List.sum_nil, List.length_cons,
    List.length_nil]
  simp only [heuristic_value_info, vi_hit_two, List.isEmpty_cons, List.length_cons,
    List.length_nil, Bool.false_eq_true, if_false]
  norm_num [MIN_VALUE, max_def, min_def]

/-- C2 counterexample: a ValueEstimate produced by estimate_value (with the
cache holding one price-less listing, exactly as the concurrent estimator
caches raw search results) has confidence "high" although no live price
contributed: every retained listing is price-less and the estimated value,
550, is identical to the heuristic-only estimate obtained with online
sources disabled — which is labelled "medium". Confidence "high" therefore
does not coincide with live data having contributed. -/
theorem C2_counterexample :
    ∃ vi s, estimate_value "GLOCK" "19" "9MM" true (Except.error "network down")
        seeded_cache_one 0 = .ok (vi, s) ∧
      vi.confidence = "high" ∧
      (vi.market_listings.all fun l => l.price.isNone) = true ∧
      vi.estimated_value = some 550 ∧
      ∃ vi2 s2, estimate_value "GLOCK" "19" "9MM" false (Except.error "network down")
          {} 0 = .ok (vi2, s2) ∧
        vi2.estimated_value = some 550 ∧ vi2.confidence = "medium" :=
  ⟨vi_hit_one, seeded_cache_one, ev_hit_one, rfl, by decide, rfl,
   vi_offline, {}, ev_offline, rfl, rfl⟩

/-- C2 (amended): for every ValueEstimate produced by estimate_value,
confidence is "high" if and only if the retained market-listings list is
non-empty (whether or not any of those listings carries a price); "medium"
whenever the estimate is present and no market listings were retained, and
"none" if and only if estimated_value is absent. -/
theorem C2_confidence_labels (manufacturer model caliber : String) (online : Bool)
    (net : Except String (List MarketListing)) (cache : CacheState) (now : ℚ)
    (vi : ValueInfo) (s : CacheState)
    (h : estimate_value manufacturer model caliber online net cache now = .ok (vi, s)) :
    (vi.confidence = "high" ↔ vi.market_listings ≠ []) ∧
    (vi.confidence = "none" ↔ vi.estimated_value = none) ∧
    (vi.market_listings = [] → vi.confidence = "medium") := by
  obtain ⟨M, MO, C, ml, rfl⟩ := estimate_value_ok_shape h
  rw [build_value_info_on_emv]
  cases ml with
  | nil => refine ⟨?_, ?_, ?_⟩ <;> simp [heuristic_value_info]
  | cons a as => refine ⟨?_, ?_, ?_⟩ <;> simp [heuristic_value_info]

/-- C2 witness: the amended labels at the heuristic-only run of the
counterexample. -/
theorem C2_witness :
    (vi_offline.confidence = "high" ↔ vi_offline.market_listings ≠ []) ∧
    (vi_offline.confidence = "none" ↔ vi_offline.estimated_value = none) ∧
    (vi_offline.market_listings = [] → vi_offline.confidence = "medium") :=
  C2_confidence_labels "GLOCK" "19" "9MM" false (Except.error "network down") {} 0
    vi_offline {} ev_offline

/-- C8: for every output of estimate_value in which estimated_value is
present, value_range is also present with its low bound at least the global
floor 50 and its high bound at least low * 1.1. -/
theorem C8_value_range_floor (manufacturer model caliber : String) (online : Bool)
    (net : Except String (List MarketListing)) (cache : CacheState) (now : ℚ)
    (vi : ValueInfo) (s : CacheState)
    (h : estimate_value manufacturer model caliber online net cache now = .ok (vi, s))
    (hsome : vi.estimated_value.isSome = true) :
    ∃ low high, vi.value_range = some (low, high) ∧ 50 ≤ low ∧ low * 1.1 ≤ high := by
  obtain ⟨M, MO, C, ml, rfl⟩ := estimate_value_ok_shape h
  rw [build_value_info_on_emv]
  exact ⟨_, _, rfl, le_max_right _ _, le_max_right _ _⟩

/-- C8 witness: the invariant at a concrete heuristic-only estimate. -/
theorem C8_witness :
    ∃ low high, vi_offline.value_range = some (low, high) ∧
      50 ≤ low ∧ low * 1.1 ≤ high :=
  C8_value_range_floor "GLOCK" "19" "9MM" false (Except.error "network down") {} 0
    vi_offline {} ev_offline rfl

/-- C9 counterexample: with the cache holding one price-less and one priced
listing (as the concurrent estimator caches raw search results), the blended
estimate has exactly one listing contributing a price, yet sample_size is 2
— the count of all retained listings, not of contributing ones. -/
theorem C9_counterexample :
    ∃ vi s, estimate_value "GLOCK" "19" "9MM" true (Except.error "network down")
        seeded_cache_two 0 = .ok (vi, s) ∧
      vi.sample_size = SampleSize.count 2 ∧
      (vi.market_listings.filter fun l => l.price.isSome).length = 1 :=
  ⟨vi_hit_two, seeded_cache_two, ev_hit_two, rfl, by decide⟩

/-- C9 (amended): in every ValueEstimate produced by estimate_value,
sample_size equals the count of all retained market listings — price-less
ones included — when any are retained, and the "N/A" marker when the
retained list is empty. -/
theorem C9_sample_size_counts_retained (manufacturer model caliber : String)
    (online : Bool) (net : Except String (List MarketListing)) (cache : CacheState)
    (now : ℚ) (vi : ValueInfo) (s : CacheState)
    (h : estimate_value manufacturer model caliber online net cache now = .ok (vi, s)) :
    vi.sample_size = if vi.market_listings.isEmpty then SampleSize.na
      else SampleSize.count vi.market_listings.length := by
  obtain ⟨M, MO, C, ml, rfl⟩ := estimate_value_ok_shape h
  rfl

/-- C9 witness: the amended statement at a concrete heuristic-only
estimate. -/
theorem C9_witness :
    vi_offline.sample_size = if vi_offline.market_listings.isEmpty then SampleSize.na
      else SampleSize.count vi_offline.market_listings.length :=
  C9_sample_size_counts_retained "GLOCK" "19" "9MM" false (Except.error "network down")
    {} 0 vi_offline {} ev_offline

theorem mem_sorted_filter_pos {xs : List MarketListing} {l : MarketListing}
    (hl : l ∈ List.insertionSort priceLe (xs.filter numericPositivePrice)) :
    ∃ q, l.price = some q ∧ 0 < q := by
  have hmem : l ∈ xs.filter numericPositivePrice :=
    (List.perm_insertionSort priceLe _).mem_iff.mp hl
  have hp := List.of_mem_filter hmem
  cases hq : l.price with
  | none => simp [numericPositivePrice, hq] at hp
  | some q =>
    refine ⟨q, rfl, ?_⟩
    simpa [numericPositivePrice, hq] using hp

theorem process_listings_mem (xs : List MarketListing) :
    ∀ l ∈ process_listings xs, ∃ q, l.price = some q ∧ 0 < q := by
  intro l hl
  simp only [process_listings] at hl
  split at hl
  · split at hl
    · split at hl
      · obtain ⟨x, hx, rfl⟩ := List.mem_map.mp hl
        obtain ⟨q, hq, hpos⟩ := mem_sorted_filter_pos hx
        exact ⟨q, hq, hpos⟩
      · exact mem_sorted_filter_pos hl
    · exact mem_sorted_filter_pos hl
  · next hcond =>
    have hxs : xs = [] := by
      cases xs with
      | nil => rfl
      | cons a as => simp at hcond
    rw [hxs] at hl
    cases hl

theorem process_listings_sorted (xs : List MarketListing) :
    List.Sorted priceLe (process_listings xs) := by
  simp only [process_listings]
  split
  · split
    · split
      · exact List.Pairwise.map _ (fun a b hab => hab)
          (List.sorted_insertionSort priceLe _)
      · exact List.sorted_insertionSort priceLe _
    · exact List.sorted_insertionSort priceLe _
  · next hcond =>
    have hxs : xs = [] := by
      cases xs with
      | nil => rfl
      | cons a as => simp at hcond
    rw [hxs]
    exact List.sorted_nil

/-- C10: every non-empty listing sequence returned by get_market_listings on
the fresh-fetch (cache-miss) path contains only listings whose price is
present and strictly greater than 0, is sorted in non-decreasing price
order, and this filtered, sorted sequence is exactly what is stored in both
cache tiers — a price-less listing produced by the client layer never
survives this path. -/
theorem C10_fresh_fetch_filtered_sorted_cached (manufacturer model caliber : String)
    (net : Except String (List MarketListing)) (cache : CacheState) (now : ℚ)
    (p : SearchParams)
    (hval : validate_search_params manufacturer model caliber = ⟨true, some p, ""⟩)
    (hmiss : (cache.get now (String.mk p.manufacturer) (String.mk p.model)
      (String.mk p.caliber)).1 = none)
    (out : List MarketListing) (s2 : CacheState)
    (h : get_market_listings manufacturer model caliber true net cache now =
      .ok (out, s2))
    (hne : out ≠ []) :
    (∀ l ∈ out, ∃ q, l.price = some q ∧ 0 < q) ∧
    List.Sorted priceLe out ∧
    (∃ entry, assocFind (generate_cache_key (String.mk p.manufacturer)
        (String.mk p.model) (String.mk p.caliber)) s2.memory_cache = some entry ∧
      entry.listings = out) ∧
    (∃ entry, assocFind (generate_cache_key (String.mk p.manufacturer)
        (String.mk p.model) (String.mk p.caliber)) s2.file_cache = some entry ∧
      entry.listings = out) := by
  simp only [get_market_listings, hval, Option.getD_some, Bool.not_true,
    Bool.false_eq_true, if_false, if_true, hmiss] at h
  rw [Except.ok.injEq, Prod.mk.injEq] at h
  obtain ⟨hout, hs2⟩ := h
  subst hout
  have hpe : (process_listings (match search_armslist (String.mk p.manufacturer)
      (String.mk p.model) (String.mk p.caliber) net with
      | .listings ls => ls
      | .valueError _ => []
      | .requestError _ => [])).isEmpty = false := by
    revert hne
    cases process_listings (match search_armslist (String.mk p.manufacturer)
        (String.mk p.model) (String.mk p.caliber) net with
        | .listings ls => ls
        | .valueError _ => []
        | .requestError _ => []) with
    | nil => intro hne; exact absurd rfl hne
    | cons a as => intro _; rfl
  rw [hpe] at hs2
  simp only [Bool.not_false, Bool.and_self, if_true] at hs2
  rw [← hs2]
  refine ⟨process_listings_mem _, process_listings_sorted _, ?_, ?_⟩
  · refine ⟨⟨now, _, String.mk p.manufacturer, String.mk p.model,
      String.mk p.caliber⟩, ?_, rfl⟩
    simp only [CacheState.set]
    exact assocFind_insert_self _ _ _
  · refine ⟨⟨now, _, String.mk p.manufacturer, String.mk p.model,
      String.mk p.caliber⟩, ?_, rfl⟩
    simp only [CacheState.set]
    exact assocFind_insert_self _ _ _

/-- Fixtures for the C10 witness: a fetch returning two priced listings out
of order plus a price-less one, against the empty cache. -/
def pW : SearchParams := ⟨"GLOCK".toList, "19".toList, "9MM".toList⟩

def netW : Except String (List MarketListing) :=
  .ok [listing_550, listing_100, listing_no_price]

def outW : List MarketListing := [listing_100, listing_550]

def s2W : CacheState := CacheState.set {} 0 "GLOCK" "19" "9MM" outW

/-- C10 witness: the fresh-fetch guarantees at the concrete fetch above. -/
theorem C10_witness :
    (∀ l ∈ outW, ∃ q, l.price = some q ∧ 0 < q) ∧
    List.Sorted priceLe outW ∧
    (∃ entry, assocFind (generate_cache_key (String.mk pW.manufacturer)
        (String.mk pW.model) (String.mk pW.caliber)) s2W.memory_cache = some entry ∧
      entry.listings = outW) ∧
    (∃ entry, assocFind (generate_cache_key (String.mk pW.manufacturer)
        (String.mk pW.model) (String.mk pW.caliber)) s2W.file_cache = some entry ∧
      entry.listings = outW) :=
  C10_fresh_fetch_filtered_sorted_cached "GLOCK" "19" "9MM" netW {} 0 pW
    (by decide) rfl outW s2W rfl (by decide)

end ElkRiver
